import Mathlib

/-!
Shallow embedding of `btceapi/common.py` (btce-api).

Python strings are modelled as `List Char` (`PyStr`).  Python
`decimal.Decimal` values are modelled as a pair of an integer mantissa and an
integer exponent (`Dec`), the value being `m * 10^e`; the module sets the
decimal context rounding to `ROUND_DOWN` (toward zero) at load time, and the
default context precision is 28 significant digits, both of which are modelled
explicitly in `quantize`.  Exceptions are modelled by `Except` with the
exception classes mirrored in `PyErr`.
-/

/-- Python `str` modelled as a list of characters. -/
abbrev PyStr := List Char

/-- The single-quote character, used by Python `repr` of strings. -/
def squote : Char := Char.ofNat 39

/-- Python `repr` of a plain string: surround with single quotes.  (Escaping of
quotes, backslashes and control characters inside the string is elided; every
string this development applies it to is plain.) -/
def pyReprStr (s : PyStr) : PyStr := squote :: s ++ [squote]

/-- The character for a decimal digit value (`n % 10`). -/
def digitChar (n : Nat) : Char := Char.ofNat (48 + n % 10)

/-- Decimal digit characters of a natural number, most significant first,
with structural fuel (any fuel above the digit count computes the digits;
`natToChars` supplies enough). -/
def natCharsAux : Nat → Nat → List Char
  | 0, _ => []
  | fuel + 1, n => if n < 10 then [digitChar n] else natCharsAux fuel (n / 10) ++ [digitChar n]

/-- Decimal digit characters of a natural number, most significant first
(`0` renders as `"0"`). -/
def natToChars (n : Nat) : List Char := natCharsAux (n + 1) n

/-- Number of decimal digits of a natural number (`numDigits 0 = 1`), i.e. the
length of the coefficient of a Python `Decimal` whose coefficient is `n`. -/
def numDigits (n : Nat) : Nat := (natToChars n).length

/-- Model of `decimal.Decimal`: integer mantissa (coefficient with sign) and
exponent; the numeric value is `m * 10 ^ e`.  Special values (NaN, infinities)
never arise in this code and are not modelled. -/
structure Dec where
  m : Int
  e : Int
deriving DecidableEq, Repr

/-- The rational value of a `Dec`. -/
def Dec.toRat (d : Dec) : ℚ :=
  if 0 ≤ d.e then (d.m : ℚ) * 10 ^ d.e.toNat else (d.m : ℚ) / 10 ^ (-d.e).toNat

/-- Integer division truncated toward zero (Python `ROUND_DOWN` rounding of
`m / 10^k` drops the discarded digits, toward zero for either sign). -/
def tdivPow10 (m : Int) (k : Nat) : Int :=
  if 0 ≤ m then m / (10 ^ k : Nat) else -((-m) / (10 ^ k : Nat))

/-- Python `Decimal.__lt__` on two `Dec` values: compare the numeric values by
bringing both mantissas to the smaller exponent. -/
def decLt (a b : Dec) : Bool :=
  let k := min a.e b.e
  a.m * (10 : Int) ^ (a.e - k).toNat < b.m * (10 : Int) ^ (b.e - k).toNat

/-- Python exception classes raised (directly or via the `decimal` and string
libraries) by `btceapi/common.py`.  `exception` is the generic base class
`Exception`; the three `invalidTrade*` constructors are the typed exception
classes the module defines.  Library exception messages
(`IndexError`, `ValueError`, `decimal.InvalidOperation`, `KeyError`) are
elided. -/
inductive PyErr where
  | invalidTradePair (msg : PyStr)
  | invalidTradeType (msg : PyStr)
  | invalidTradeAmount (msg : PyStr)
  | valueError
  | indexError
  | keyError
  | invalidOperation
  | responseNotReady
  | transport (msg : PyStr)
  | exception (msg : PyStr)
deriving DecidableEq, Repr

deriving instance DecidableEq for Except

/-- `Decimal.quantize(Decimal(1, qe), rounding=ROUND_DOWN)` under the default
context precision of 28 significant digits: rescale the mantissa to exponent
`qe`, truncating toward zero, and signal `InvalidOperation` when the resulting
coefficient has more than 28 digits. -/
def quantizedCoeff (v : Dec) (qe : Int) : Int :=
  if qe ≤ v.e then v.m * (10 : Int) ^ (v.e - qe).toNat
  else tdivPow10 v.m (qe - v.e).toNat

/-- The result of the quantize operation: the rescaled coefficient at the
quantum's exponent when it fits in the context precision. -/
def quantize (v : Dec) (qe : Int) : Except PyErr Dec :=
  if numDigits (quantizedCoeff v qe).natAbs ≤ 28 then .ok ⟨quantizedCoeff v qe, qe⟩
  else .error .invalidOperation

/-- Module-level table `exps = [Decimal("1e-%d" % i) for i in range(16)]`. -/
def exps : List Dec := (List.range 16).map (fun i => ⟨1, -(i : Int)⟩)

/-- `truncateAmountDigits(value, digits)` for a `Decimal` input: look up
`exps[digits]` (an `IndexError` for `digits ≥ 16`) and quantize with the
context's `ROUND_DOWN` rounding.  (The `float`/`str` coercion branches of the
Python function convert those inputs to `Decimal` via text first; the claims
quantify over decimal inputs, which skip both branches.) -/
def truncateAmountDigits (value : Dec) (digits : Nat) : Except PyErr Dec :=
  match exps[digits]? with
  | none => .error .indexError
  | some q => quantize value q.e

/-- Signed decimal digits with a forced sign, Python `"%+d"`. -/
def intSignedChars (k : Int) : List Char :=
  (if 0 ≤ k then '+' else '-') :: natToChars k.natAbs

/-- The position of the decimal point in `str(Decimal)` relative to the
start of the coefficient digits (`leftdigits` when rendering positionally,
`1` when rendering scientifically), for a coefficient of `n` digits. -/
def decDotplace (e : Int) (n : Nat) : Int :=
  if e ≤ 0 ∧ -6 < e + n then e + n else 1

/-- The digits-with-point part of `str(Decimal)` for coefficient digit list
`digits` and point position `dotplace`. -/
def decBody (digits : List Char) (dotplace : Int) : PyStr :=
  if dotplace ≤ 0 then
    '0' :: '.' :: List.replicate (-dotplace).toNat '0' ++ digits
  else if (digits.length : Int) ≤ dotplace then
    digits ++ List.replicate (dotplace - digits.length).toNat '0'
  else
    digits.take dotplace.toNat ++ '.' :: digits.drop dotplace.toNat

/-- Python `str(Decimal)` (`_pydecimal.Decimal.__str__`, `eng=False`): plain
positional notation when the exponent is ≤ 0 and the leftmost digit position
is > -6, scientific notation (`E±k`) otherwise. -/
def decStr (d : Dec) : PyStr :=
  let digits := natToChars d.m.natAbs
  let dotplace := decDotplace d.e digits.length
  (if d.m < 0 then ['-'] else []) ++ decBody digits dotplace ++
    (if d.e + (digits.length : Int) = dotplace then []
     else 'E' :: intSignedChars (d.e + (digits.length : Int) - dotplace))

/-- Python `s.index(".")`: position of the first `'.'`, or a `ValueError`
(modelled as `none`) when there is none. -/
def findDotIdx : PyStr → Option Nat
  | [] => none
  | c :: t => if c = '.' then some 0 else (findDotIdx t).map (· + 1)

/-- The stripping loop of `formatCurrencyDigits`, with structural fuel: each
iteration drops one trailing character, so `s.length` rounds of fuel always
suffice. -/
def stripLoopAux : Nat → PyStr → Nat → PyStr
  | 0, s, _ => s
  | fuel + 1, s, dot =>
    if s.getLastD ' ' = '0' ∧ dot + 2 < s.length then stripLoopAux fuel s.dropLast dot else s

/-- The stripping loop of `formatCurrencyDigits`:
`while s[-1] == "0" and len(s) > dot + 2: s = s[:-1]`. -/
def stripLoop (s : PyStr) (dot : Nat) : PyStr := stripLoopAux s.length s dot

/-- `formatCurrencyDigits(value, digits)`: truncate, render with `str`, locate
the decimal point (`ValueError` when absent), then strip trailing `'0'`
characters while more than one character follows the point. -/
def formatCurrencyDigits (value : Dec) (digits : Nat) : Except PyErr PyStr :=
  match truncateAmountDigits value digits with
  | .error e => .error e
  | .ok t =>
    let s := decStr t
    match findDotIdx s with
    | none => .error .valueError
    | some dot => .ok (stripLoop s dot)

/-- Module-level tuple `all_pairs`. -/
def all_pairs : List PyStr :=
  ["btc_usd", "btc_rur", "btc_eur", "btc_cnh", "btc_gbp",
   "ltc_btc", "ltc_usd", "ltc_rur", "ltc_eur", "ltc_cnh",
   "ltc_gbp", "nmc_btc", "nmc_usd", "nvc_btc", "nvc_usd",
   "usd_rur", "usd_cnh", "eur_usd", "eur_rur", "gbp_usd",
   "ppc_btc", "ppc_usd"].map String.data

/-- Module-level dict `max_digits` (lookup; `none` models a `KeyError`). -/
def max_digits (pair : PyStr) : Option Nat :=
  (["btc_usd".data, "btc_rur".data, "btc_eur".data, "btc_cnh".data,
    "btc_gbp".data, "ltc_btc".data, "ltc_usd".data, "ltc_rur".data,
    "ltc_eur".data, "ltc_cnh".data, "ltc_gbp".data, "nmc_btc".data,
    "nmc_usd".data, "nvc_btc".data, "nvc_usd".data, "usd_rur".data,
    "eur_usd".data, "eur_rur".data, "usd_cnh".data, "gbp_usd".data,
    "ppc_btc".data, "ppc_usd".data].zip
   [3, 5, 5, 2, 5, 5, 6, 5, 3, 2, 3, 5, 3, 5, 3, 5, 5, 5, 4, 4, 5, 3]).lookup pair

/-- Module-level dict `min_orders`: `Decimal("0.01")` for the five `btc_*`
pairs, `Decimal("0.1")` for the rest (lookup; `none` models a `KeyError`). -/
def min_orders (pair : PyStr) : Option Dec :=
  (["btc_usd".data, "btc_rur".data, "btc_eur".data, "btc_cnh".data,
    "btc_gbp".data, "ltc_btc".data, "ltc_usd".data, "ltc_rur".data,
    "ltc_eur".data, "ltc_cnh".data, "ltc_gbp".data, "nmc_btc".data,
    "nmc_usd".data, "nvc_btc".data, "nvc_usd".data, "usd_rur".data,
    "eur_usd".data, "eur_rur".data, "usd_cnh".data, "gbp_usd".data,
    "ppc_btc".data, "ppc_usd".data].zip
   [⟨1, -2⟩, ⟨1, -2⟩, ⟨1, -2⟩, ⟨1, -2⟩, ⟨1, -2⟩,
    ⟨1, -1⟩, ⟨1, -1⟩, ⟨1, -1⟩, ⟨1, -1⟩, ⟨1, -1⟩,
    ⟨1, -1⟩, ⟨1, -1⟩, ⟨1, -1⟩, ⟨1, -1⟩, ⟨1, -1⟩,
    ⟨1, -1⟩, ⟨1, -1⟩, ⟨1, -1⟩, ⟨1, -1⟩, ⟨1, -1⟩,
    ⟨1, -1⟩, ⟨1, -1⟩]).lookup pair

/-- `truncateAmount(value, pair) = truncateAmountDigits(value, max_digits[pair])`. -/
def truncateAmount (value : Dec) (pair : PyStr) : Except PyErr Dec :=
  match max_digits pair with
  | none => .error .keyError
  | some dg => truncateAmountDigits value dg

/-- `formatCurrency(value, pair) = formatCurrencyDigits(value, max_digits[pair])`. -/
def formatCurrency (value : Dec) (pair : PyStr) : Except PyErr PyStr :=
  match max_digits pair with
  | none => .error .keyError
  | some dg => formatCurrencyDigits value dg

/-- Python `pair.split("_", 1)` for a string containing `'_'`: the part before
the first `'_'` and the part after it. -/
def splitFirstUnderscore : PyStr → PyStr × PyStr
  | [] => ([], [])
  | c :: cs =>
    if c = '_' then ([], cs)
    else
      let p := splitFirstUnderscore cs
      (c :: p.1, p.2)

/-- `validatePair(pair)`: succeed when the pair is registered; otherwise raise
`InvalidTradePairException`, suggesting the swapped pair in the message when
the string with the two components (around the first `'_'`) exchanged is
registered. -/
def validatePair (pair : PyStr) : Except PyErr Unit :=
  if pair ∈ all_pairs then .ok ()
  else
    if '_' ∈ pair then
      let p := splitFirstUnderscore pair
      let swapped := p.2 ++ '_' :: p.1
      if swapped ∈ all_pairs then
        .error (.invalidTradePair
          ("Unrecognized pair: ".data ++ pyReprStr pair ++
           " (did you mean ".data ++ swapped ++ "?)".data))
      else
        .error (.invalidTradePair ("Unrecognized pair: ".data ++ pyReprStr pair))
    else
      .error (.invalidTradePair ("Unrecognized pair: ".data ++ pyReprStr pair))

/-- Python `repr(Decimal(...))`: `Decimal('<str>')`. -/
def pyReprDec (d : Dec) : PyStr :=
  "Decimal(".data ++ squote :: decStr d ++ squote :: ")".data

/-- `validateOrder(pair, trade_type, rate, amount)`: validate the pair, then
the trade type, then look up the pair's minimum, format it (this happens
before the amount comparison), and raise `InvalidTradeAmountException` when
`amount < minimum`.  The `rate` argument is accepted and never used, exactly
as in the source. -/
def validateOrder (pair trade_type : PyStr) (rate amount : Dec) : Except PyErr Unit :=
  match validatePair pair with
  | .error e => .error e
  | .ok () =>
    if trade_type ≠ "buy".data ∧ trade_type ≠ "sell".data then
      .error (.invalidTradeType ("Unrecognized trade type: ".data ++ pyReprStr trade_type))
    else
      match min_orders pair with
      | none => .error .keyError
      | some minimum_amount =>
        match formatCurrency minimum_amount pair with
        | .error e => .error e
        | .ok formatted_min_amount =>
          if decLt amount minimum_amount then
            .error (.invalidTradeAmount
              ("Trade amount ".data ++ pyReprDec amount ++
               " is too small, it should be >= ".data ++ formatted_min_amount))
          else .ok ()

/-! ### DecimalJSON: `json.loads` with `parse_float = parse_int = Decimal` -/

/-- JSON value tree produced by `json.loads` with `parse_float` and
`parse_int` both set to `decimal.Decimal`, as `parseJSONResponse` does:
every numeric literal becomes a `Dec`.  `fconst` records the result of the
default `parse_constant` on the non-standard literals `NaN` / `Infinity` /
`-Infinity` (a binary float in Python) symbolically by the literal's name;
these are not numeric literals of the JSON grammar. -/
inductive JVal where
  | obj (fields : List (PyStr × JVal))
  | arr (elems : List JVal)
  | str (s : PyStr)
  | num (d : Dec)
  | bool (b : Bool)
  | null
  | fconst (name : PyStr)

/-- A `json.JSONDecodeError`.  Only the leading message text is modelled; the
line/column/offset suffix Python appends is elided. -/
structure JErr where
  msg : PyStr
deriving DecidableEq, Repr

/-- JSON whitespace, Python's `_w = re.compile(r'[ \t\n\r]*')`. -/
def isJsonWs (c : Char) : Bool := c = ' ' ∨ c = '\t' ∨ c = '\n' ∨ c = '\r'

/-- Skip JSON whitespace. -/
def skipWs (s : PyStr) : PyStr := s.dropWhile isJsonWs

/-- Value of a hexadecimal digit character, if any. -/
def hexVal (c : Char) : Option Nat :=
  if '0' ≤ c ∧ c ≤ '9' then some (c.toNat - 48)
  else if 'a' ≤ c ∧ c ≤ 'f' then some (c.toNat - 87)
  else if 'A' ≤ c ∧ c ≤ 'F' then some (c.toNat - 55)
  else none

/-- Read four hexadecimal digits (`\uXXXX` payload). -/
def take4Hex : PyStr → Option (Nat × PyStr)
  | a :: b :: c :: d :: r =>
    match hexVal a, hexVal b, hexVal c, hexVal d with
    | some va, some vb, some vc, some vd => some ((((va * 16 + vb) * 16 + vc) * 16 + vd), r)
    | _, _, _, _ => none
  | _ => none

/-- The single-character escape table of the JSON string scanner
(`BACKSLASH` in Python's `json.decoder`). -/
def escChar (c : Char) : Option Char :=
  if c = '"' then some '"'
  else if c = '\\' then some '\\'
  else if c = '/' then some '/'
  else if c = 'b' then some (Char.ofNat 8)
  else if c = 'f' then some (Char.ofNat 12)
  else if c = 'n' then some '\n'
  else if c = 'r' then some '\r'
  else if c = 't' then some '\t'
  else none

/-- Prepend a character to the scanned part of a string-scanner result. -/
def consFst (c : Char) (p : PyStr × PyStr) : PyStr × PyStr := (c :: p.1, p.2)

/-- The strict JSON string scanner (`py_scanstring`), positioned just after
the opening quote; returns the decoded string and the rest of the input.
Fuel is structural; `length + 1` always suffices since every step consumes at
least one character.  A lone surrogate from a `\uXXXX` escape is mapped
through `Char.ofNat` (Python keeps it as a lone surrogate code unit, which a
Lean `Char` cannot hold; no claim depends on it). -/
def parseJStr : Nat → PyStr → Except JErr (PyStr × PyStr)
  | 0, _ => .error ⟨"Unterminated string starting at".data⟩
  | fuel + 1, s =>
    match s with
    | [] => .error ⟨"Unterminated string starting at".data⟩
    | '"' :: rest => .ok ([], rest)
    | '\\' :: 'u' :: r2 =>
      (match take4Hex r2 with
       | none => .error ⟨"Invalid \\uXXXX escape".data⟩
       | some (u1, r3) =>
         if 0xD800 ≤ u1 ∧ u1 ≤ 0xDBFF then
           match r3 with
           | '\\' :: 'u' :: r4 =>
             (match take4Hex r4 with
              | none => .error ⟨"Invalid \\uXXXX escape".data⟩
              | some (u2, r5) =>
                if 0xDC00 ≤ u2 ∧ u2 ≤ 0xDFFF then
                  (parseJStr fuel r5).map
                    (consFst (Char.ofNat (0x10000 + (u1 - 0xD800) * 0x400 + (u2 - 0xDC00))))
                else (parseJStr fuel r3).map (consFst (Char.ofNat u1)))
           | _ => (parseJStr fuel r3).map (consFst (Char.ofNat u1))
         else (parseJStr fuel r3).map (consFst (Char.ofNat u1)))
    | '\\' :: e :: rest =>
      (match escChar e with
       | some c => (parseJStr fuel rest).map (consFst c)
       | none => .error ⟨"Invalid \\escape".data⟩)
    | '\\' :: [] => .error ⟨"Unterminated string starting at".data⟩
    | c :: rest =>
      if c.toNat < 32 then .error ⟨"Invalid control character".data⟩
      else (parseJStr fuel rest).map (consFst c)

/-- Leading run of decimal digits and the rest. -/
def takeDigits (s : PyStr) : PyStr × PyStr := (s.takeWhile Char.isDigit, s.dropWhile Char.isDigit)

/-- Numeric value of a string of decimal digit characters. -/
def charsToNat (s : PyStr) : Nat := s.foldl (fun a c => 10 * a + (c.toNat - 48)) 0

/-- The `Decimal` built from the matched parts of a JSON number literal:
sign, integer digits, fractional digits (empty when the literal has no
fraction), exponent sign and exponent digits (empty when it has none).
`Decimal(literal)` has coefficient `intpart ++ fracpart` and exponent
`exp - len(fracpart)`; with no fraction and no exponent this is
`Decimal(intpart)`, which is what the `parse_int` hook receives. -/
def decOfParts (neg : Bool) (ip fp : PyStr) (eneg : Bool) (ed : PyStr) : Dec :=
  ⟨(if neg then -1 else 1) * (charsToNat (ip ++ fp) : Int),
   (if eneg then -1 else 1) * (charsToNat ed : Int) - fp.length⟩

/-- Fraction group `(\.\d+)?` of the scanner's number regex: consumed only
when a `'.'` is followed by at least one digit. -/
def scanFrac (s : PyStr) : PyStr × PyStr :=
  match s with
  | '.' :: r =>
    let p := takeDigits r
    if p.1 = [] then ([], s) else p
  | _ => ([], s)

/-- Exponent group `([eE][-+]?\d+)?` of the scanner's number regex: consumed
only when complete. -/
def scanExp (s : PyStr) : Bool × PyStr × PyStr :=
  match s with
  | c :: r =>
    if c = 'e' ∨ c = 'E' then
      let (eneg, r2) : Bool × PyStr :=
        match r with
        | '-' :: t => (true, t)
        | '+' :: t => (false, t)
        | _ => (false, r)
      let p := takeDigits r2
      if p.1 = [] then (false, [], s) else (eneg, p.1, p.2)
    else (false, [], s)
  | [] => (false, [], s)

/-- Finish a number match after its integer digits: optional fraction and
exponent groups, then the `parse_float`/`parse_int` hook — both are
`decimal.Decimal` here, so both paths yield `decOfParts`. -/
def finishNumber (neg : Bool) (ip : PyStr) (r : PyStr) : Dec × PyStr :=
  let pf := scanFrac r
  let pe := scanExp pf.2
  (decOfParts neg ip pf.1 pe.1 pe.2.1, pe.2.2)

/-- Match the scanner's `NUMBER_RE = (-?(?:0|[1-9]\d*))(\.\d+)?([eE][-+]?\d+)?`
at the head of `s`; `none` when it does not match there. -/
def scanNumber (s : PyStr) : Option (Dec × PyStr) :=
  let (neg, s1) : Bool × PyStr :=
    match s with
    | '-' :: t => (true, t)
    | _ => (false, s)
  match s1 with
  | '0' :: t => some (finishNumber neg ['0'] t)
  | c :: t =>
    if c.isDigit then
      let p := takeDigits t
      some (finishNumber neg (c :: p.1) p.2)
    else none
  | [] => none

/-- Match a literal at the head of `s` (Python `s[idx:idx+n] == lit`),
returning the rest. -/
def dropLit : PyStr → PyStr → Option PyStr
  | [], s => some s
  | _, [] => none
  | l :: ls, c :: cs => if c = l then dropLit ls cs else none

/-- Python `dict` insertion for the decoded object pairs: a duplicate key
keeps its first position and takes the later value. -/
def dictInsert (l : List (PyStr × JVal)) (k : PyStr) (v : JVal) : List (PyStr × JVal) :=
  match l with
  | [] => [(k, v)]
  | (k0, v0) :: t => if k0 = k then (k0, v) :: t else (k0, v0) :: dictInsert t k v

mutual

/-- The value scanner (`_scan_once` of Python's `json.scanner` with the hooks
of `parseJSONResponse`).  Fuel is structural and decreases on every nested
call; `jsonLoads` supplies more fuel than any input can consume. -/
def scanValue : Nat → PyStr → Except JErr (JVal × PyStr)
  | 0, _ => .error ⟨"Expecting value".data⟩
  | fuel + 1, s =>
    match s with
    | '"' :: r => (parseJStr (r.length + 1) r).map (fun p => (.str p.1, p.2))
    | '{' :: r =>
      (match skipWs r with
       | '}' :: r2 => .ok (.obj [], r2)
       | '"' :: r2 => scanMembers fuel r2 []
       | _ => .error ⟨"Expecting property name enclosed in double quotes".data⟩)
    | '[' :: r =>
      (match skipWs r with
       | ']' :: r2 => .ok (.arr [], r2)
       | r2 => scanElems fuel r2 [])
    | _ =>
      match dropLit "null".data s with
      | some r => .ok (.null, r)
      | none =>
      match dropLit "true".data s with
      | some r => .ok (.bool true, r)
      | none =>
      match dropLit "false".data s with
      | some r => .ok (.bool false, r)
      | none =>
      match scanNumber s with
      | some (d, r) => .ok (.num d, r)
      | none =>
      match dropLit "NaN".data s with
      | some r => .ok (.fconst "NaN".data, r)
      | none =>
      match dropLit "Infinity".data s with
      | some r => .ok (.fconst "Infinity".data, r)
      | none =>
      match dropLit "-Infinity".data s with
      | some r => .ok (.fconst "-Infinity".data, r)
      | none => .error ⟨"Expecting value".data⟩

/-- Object member loop of `JSONObject`, positioned just after the opening
quote of a key. -/
def scanMembers : Nat → PyStr → List (PyStr × JVal) → Except JErr (JVal × PyStr)
  | 0, _, _ => .error ⟨"Expecting value".data⟩
  | fuel + 1, s, acc =>
    match parseJStr (s.length + 1) s with
    | .error e => .error e
    | .ok (key, r) =>
      match skipWs r with
      | ':' :: r2 =>
        (match scanValue fuel (skipWs r2) with
         | .error e => .error e
         | .ok (v, r3) =>
           let acc' := dictInsert acc key v
           match skipWs r3 with
           | '}' :: r4 => .ok (.obj acc', r4)
           | ',' :: r4 =>
             (match skipWs r4 with
              | '"' :: r5 => scanMembers fuel r5 acc'
              | _ => .error ⟨"Expecting property name enclosed in double quotes".data⟩)
           | _ => .error ⟨"Expecting ".data ++ squote :: ',' :: squote :: " delimiter".data⟩)
      | _ => .error ⟨"Expecting ".data ++ squote :: ':' :: squote :: " delimiter".data⟩

/-- Array element loop of `JSONArray`, positioned at a value. -/
def scanElems : Nat → PyStr → List JVal → Except JErr (JVal × PyStr)
  | 0, _, _ => .error ⟨"Expecting value".data⟩
  | fuel + 1, s, acc =>
    match scanValue fuel s with
    | .error e => .error e
    | .ok (v, r) =>
      match skipWs r with
      | ']' :: r2 => .ok (.arr (acc ++ [v]), r2)
      | ',' :: r2 => scanElems fuel (skipWs r2) (acc ++ [v])
      | _ => .error ⟨"Expecting ".data ++ squote :: ',' :: squote :: " delimiter".data⟩

end

/-- `json.loads(s)` with `parse_float = parse_int = Decimal`: skip leading
whitespace, scan one value, and require only whitespace after it
(`"Extra data"` otherwise). -/
def jsonLoads (s : PyStr) : Except JErr JVal :=
  match scanValue (2 * s.length + 4) (skipWs s) with
  | .error e => .error e
  | .ok (v, rest) => if skipWs rest = [] then .ok v else .error ⟨"Extra data".data⟩

/-- `parseJSONResponse(response)`: delegate to `json.loads` with the
`Decimal` hooks; on any failure raise a plain `Exception` whose message
embeds the underlying error (`%s`) and the `repr` of the response (`%r`). -/
def parseJSONResponse (response : PyStr) : Except PyErr JVal :=
  match jsonLoads response with
  | .ok r => .ok r
  | .error e =>
    .error (.exception
      ("Error while attempting to parse JSON response: ".data ++ e.msg ++
       "\nResponse:\n".data ++ pyReprStr response))

/-! ### BTCEConnection: cookie handshake and request pipeline

The transport (`httplib.HTTPSConnection`) is abstracted by a `ReqEnv` that
supplies the outcome of each network interaction: the handshake `GET /`
either raises a transport error or yields the `Set-Cookie` header text and
the response body; the `POST` either raises during `conn.request` or yields
the bytes read from the response.  The connection object's mutable state is
`ConnState`: the cookie slot and a generation counter for the underlying
handle, bumped each time `setup_connection` builds a fresh
`HTTPSConnection`. -/

/-- Lowercase-hex character class `[a-f0-9]` of the two cookie patterns. -/
def isLowerHex (c : Char) : Bool := ('a' ≤ c ∧ c ≤ 'f') ∨ ('0' ≤ c ∧ c ≤ '9')

/-- Match exactly `n` lowercase-hex characters, returning them and the rest. -/
def takeHexN : Nat → PyStr → Option (PyStr × PyStr)
  | 0, s => some ([], s)
  | _ + 1, [] => none
  | n + 1, c :: cs =>
    if isLowerHex c then (takeHexN n cs).map (fun p => (c :: p.1, p.2)) else none

/-- Match `HEADER_COOKIE_RE = __cfduid=([a-f0-9]{46})` anchored at the head
of `s`, returning the captured group. -/
def headerCookieAt (s : PyStr) : Option PyStr := do
  let r ← dropLit "__cfduid=".data s
  let p ← takeHexN 46 r
  some p.1

/-- `HEADER_COOKIE_RE.search`: the capture of the leftmost match, if any. -/
def searchHeaderCookie : PyStr → Option PyStr
  | [] => headerCookieAt []
  | s@(_ :: t) =>
    match headerCookieAt s with
    | some a => some a
    | none => searchHeaderCookie t

/-- Match `BODY_COOKIE_RE = document\.cookie="a=([a-f0-9]{32});path=/;";`
anchored at the head of `s`, returning the captured group. -/
def bodyCookieAt (s : PyStr) : Option PyStr := do
  let r ← dropLit "document.cookie=\"a=".data s
  let p ← takeHexN 32 r
  let _ ← dropLit ";path=/;\";".data p.2
  some p.1

/-- `BODY_COOKIE_RE.search`: the capture of the leftmost match, if any. -/
def searchBodyCookie : PyStr → Option PyStr
  | [] => bodyCookieAt []
  | s@(_ :: t) =>
    match bodyCookieAt s with
    | some b => some b
    | none => searchBodyCookie t

/-- The cookie value `getCookie` composes from a handshake response, starting
from `self.cookie = ""`: the header fragment (prefixed `__cfduid=`) if its
pattern matched, then — joined with `"; "` when the cookie is non-empty so
far — the body fragment (prefixed `a=`) if its pattern matched. -/
def composeCookie (hdr body : PyStr) : PyStr :=
  let cookie : PyStr :=
    match searchHeaderCookie hdr with
    | some a => "__cfduid=".data ++ a
    | none => []
  match searchBodyCookie body with
  | some b => (if cookie ≠ [] then cookie ++ "; ".data else cookie) ++ "a=".data ++ b
  | none => cookie

/-- Mutable state of a `BTCEConnection`: the cookie slot (`None` until the
handshake has run) and the generation of the underlying transport handle. -/
structure ConnState where
  cookie : Option PyStr
  handleGen : Nat
deriving DecidableEq, Repr

/-- `setup_connection`: build a fresh `HTTPSConnection` (new handle
generation) and clear the cookie (`self.cookie = None`). -/
def setup_connection (st : ConnState) : ConnState := ⟨none, st.handleGen + 1⟩

/-- `__init__`: store the timeout (not modelled) and run `setup_connection`. -/
def initConn : ConnState := setup_connection ⟨none, 0⟩

/-- `getCookie`: set `self.cookie = ""`, then issue `GET /`.  On a transport
error, close and rebuild the connection (which resets the cookie to `None`)
and re-raise.  On success, compose the cookie from the `Set-Cookie` header
text and the body.  (A response with no `Set-Cookie` header at all would make
`re.search` raise a `TypeError` in Python; the model supplies the header as
text, possibly empty.) -/
def getCookie (st : ConnState) (hs : Except PyStr (PyStr × PyStr)) :
    ConnState × Option PyErr :=
  let st1 : ConnState := { st with cookie := some [] }
  match hs with
  | .error e => (setup_connection st1, some (.transport e))
  | .ok (hdr, body) => ({ st1 with cookie := some (composeCookie hdr body) }, none)

/-- Environment of one `makeRequest` call: the outcome the transport would
produce for the handshake `GET` (if one runs) and for the `POST`
(`.error` = `conn.request` raises; `.ok r` = the request goes through and
`getresponse().read()` returns `r`). -/
structure ReqEnv where
  hs : Except PyStr (PyStr × PyStr)
  post : Except PyStr PyStr

/-- Observable trace of one `makeRequest` call: the connection state after
the call, the returned value or raised exception, the headers passed to
`conn.request` (`none` when the handshake failed before the `POST`), and
whether the cookie handshake ran during the call. -/
structure ReqTrace where
  state : ConnState
  result : Except PyErr PyStr
  sentHeaders : Option (List (PyStr × PyStr))
  handshakeRan : Bool
deriving DecidableEq, Repr

/-- Python `dict` update of one header key. -/
def updateHeader (hs : List (PyStr × PyStr)) (k v : PyStr) : List (PyStr × PyStr) :=
  match hs with
  | [] => [(k, v)]
  | (k0, v0) :: t => if k0 = k then (k0, v) :: t else (k0, v0) :: updateHeader t k v

/-- Python `headers.update(extra_headers)`. -/
def updateHeadersWith (hs : List (PyStr × PyStr)) : List (PyStr × PyStr) → List (PyStr × PyStr)
  | [] => hs
  | (k, v) :: t => updateHeadersWith (updateHeader hs k v) t

/-- `makeRequest(url, extra_headers, params, with_cookie)`: build the default
form-encoded content-type header, merge caller headers, run the cookie
handshake if a cookie is required and unset, attach the `Cookie` header
(whatever the cookie value, including the empty string), then `POST`.  When
`conn.request` raises, the `try/finally` shape of the source still calls
`self.conn.getresponse()` on the same handle — which raises its own
`ResponseNotReady`-style error, masking the original — and the connection is
neither closed nor rebuilt.  `url` and `params` are carried to the transport,
which the `ReqEnv` abstracts, so they do not influence the trace. -/
def makeRequest (st : ConnState) (env : ReqEnv) (url : PyStr)
    (extra_headers : Option (List (PyStr × PyStr))) (params : PyStr)
    (with_cookie : Bool) : ReqTrace :=
  let headers := [("Content-type".data, "application/x-www-form-urlencoded".data)]
  let headers := match extra_headers with
    | none => headers
    | some ex => updateHeadersWith headers ex
  let step : ConnState × Option PyErr × Bool :=
    if with_cookie && st.cookie.isNone then
      let p := getCookie st env.hs
      (p.1, p.2, true)
    else (st, none, false)
  match step with
  | (st1, some e, ran) => ⟨st1, .error e, none, ran⟩
  | (st1, none, ran) =>
    let headers :=
      if with_cookie then updateHeader headers "Cookie".data (st1.cookie.getD []) else headers
    match env.post with
    | .error _ => ⟨st1, .error .responseNotReady, some headers, ran⟩
    | .ok resp => ⟨st1, .ok resp, some headers, ran⟩

/-! ### Spec-side definitions

Two definitions below transcribe the specification's own wording, for the
refinement claims: `litRat` is the mathematical value of a JSON numeric
literal ("the exact-precision decimal carrying the literal's digits"), and
`formatSpec` is the spec's description of `format` ("truncate, then render,
then strip trailing zero digits from the fractional part down to a minimum of
one digit after the decimal point"). -/

/-- The exact mathematical (rational) value of a JSON number literal with
optional sign, integer digits `ip`, fractional digits `fp` and signed
exponent digits `ed`. -/
def litRat (neg : Bool) (ip fp : PyStr) (eneg : Bool) (ed : PyStr) : ℚ :=
  (if neg then -1 else 1) * ((charsToNat ip : ℚ) + (charsToNat fp : ℚ) / 10 ^ fp.length) *
    10 ^ ((if eneg then -1 else 1) * (charsToNat ed : Int))

/-- Strip trailing `'0'` digits from a fractional-digit block, keeping at
least one digit (the spec's stripping rule). -/
def stripZerosKeepOne (fp : PyStr) : PyStr :=
  let f := (fp.reverse.dropWhile (fun c => c = '0')).reverse
  if f = [] then ['0'] else f

/-- The spec's rendering of a truncated value `t` (whose exponent is `-d`):
sign, the coefficient digits padded to at least `d + 1` digits, a decimal
point before the last `d` of them, and the fractional block stripped by
`stripZerosKeepOne`. -/
def formatSpec (t : Dec) (d : Nat) : PyStr :=
  let digits := natToChars t.m.natAbs
  let padded := List.replicate (d + 1 - digits.length) '0' ++ digits
  let ip := padded.take (padded.length - d)
  let fp := padded.drop (padded.length - d)
  (if t.m < 0 then ['-'] else []) ++ ip ++ '.' :: stripZerosKeepOne fp


/-! ### Concrete handshake inputs used by the witnesses -/

/-- A 46-character lowercase-hex header fragment. -/
def hexAW : PyStr := List.replicate 46 'a'

/-- A 32-character lowercase-hex body fragment. -/
def hexBW : PyStr := List.replicate 32 '5'

/-- A `Set-Cookie` header text containing a `HEADER_COOKIE_RE` match. -/
def hdrW : PyStr := "Set-Cookie: __cfduid=".data ++ hexAW ++ "; expires=Mon".data

/-- A response body containing a `BODY_COOKIE_RE` match. -/
def bodyW : PyStr :=
  "<script>document.cookie=\"a=".data ++ hexBW ++ ";path=/;\";</script>".data

/-- A request environment whose handshake succeeds with `hdrW`/`bodyW`. -/
def env1W : ReqEnv := ⟨.ok (hdrW, bodyW), .ok "response-one".data⟩

/-- A request environment whose handshake would fail if it ran. -/
def env2W : ReqEnv := ⟨.error "handshake must not run".data, .ok "response-two".data⟩

/-! ### Helper lemmas -/

theorem digitChar_toNat_aux : ∀ k, k < 10 → (Char.ofNat (48 + k)).toNat = 48 + k := by
  intro k hk
  interval_cases k <;> rfl

theorem digitChar_toNat (n : Nat) : (digitChar n).toNat = 48 + n % 10 :=
  digitChar_toNat_aux (n % 10) (Nat.mod_lt _ (by omega))

theorem mem_natCharsAux_toNat :
    ∀ (f n : Nat) (c : Char), c ∈ natCharsAux f n → 48 ≤ c.toNat ∧ c.toNat ≤ 57 := by
  intro f
  induction f with
  | zero => intro n c hc; simp [natCharsAux] at hc
  | succ f ih =>
    intro n c hc
    rw [natCharsAux] at hc
    by_cases h : n < 10
    · rw [if_pos h] at hc
      simp at hc
      subst hc
      rw [digitChar_toNat]
      have := Nat.mod_lt n (show 0 < 10 by omega)
      omega
    · rw [if_neg h] at hc
      rcases List.mem_append.mp hc with h1 | h2
      · exact ih _ _ h1
      · simp at h2
        subst h2
        rw [digitChar_toNat]
        have := Nat.mod_lt n (show 0 < 10 by omega)
        omega

theorem mem_natToChars_toNat (n : Nat) (c : Char) (hc : c ∈ natToChars n) :
    48 ≤ c.toNat ∧ c.toNat ≤ 57 := mem_natCharsAux_toNat _ _ _ hc

theorem mem_natToChars_ne_dot (n : Nat) (c : Char) (hc : c ∈ natToChars n) : c ≠ '.' := by
  have h := mem_natToChars_toNat n c hc
  intro he
  subst he
  simp at h

theorem natToChars_ne_nil (n : Nat) : natToChars n ≠ [] := by
  rw [natToChars, natCharsAux]
  by_cases h : n < 10 <;> simp [h]

theorem findDotIdx_no_dot : ∀ (s : PyStr), (∀ c ∈ s, c ≠ '.') → findDotIdx s = none := by
  intro s
  induction s with
  | nil => intro _; rfl
  | cons c t ih =>
    intro h
    rw [findDotIdx, if_neg (h c (by simp)), ih (fun x hx => h x (by simp [hx]))]
    rfl

theorem findDotIdx_append (a : PyStr) (fp : PyStr) (ha : ∀ c ∈ a, c ≠ '.') :
    findDotIdx (a ++ '.' :: fp) = some a.length := by
  induction a with
  | nil => simp [findDotIdx]
  | cons c t ih =>
    rw [List.cons_append, findDotIdx, if_neg (ha c (by simp)),
      ih (fun x hx => ha x (by simp [hx]))]
    rfl

theorem exps_getElem (d : Nat) (hd : d < 16) : exps[d]? = some ⟨1, -(d : Int)⟩ := by
  interval_cases d <;> rfl

theorem exps_getElem_none (d : Nat) (hd : 16 ≤ d) : exps[d]? = none := by
  apply List.getElem?_eq_none
  simpa [exps] using hd

/-! ### Helper lemmas for the claim theorems -/


theorem quantize_ok_elim (v : Dec) (qe : Int) (t : Dec) (h : quantize v qe = .ok t) :
    t = ⟨quantizedCoeff v qe, qe⟩ ∧ numDigits (quantizedCoeff v qe).natAbs ≤ 28 := by
  by_cases h28 : numDigits (quantizedCoeff v qe).natAbs ≤ 28
  · rw [quantize, if_pos h28] at h
    cases h
    exact ⟨rfl, h28⟩
  · rw [quantize, if_neg h28] at h
    cases h

theorem quantizedCoeff_self (m : Int) (qe : Int) : quantizedCoeff ⟨m, qe⟩ qe = m := by
  rw [quantizedCoeff, if_pos (le_refl qe)]
  simp

theorem quantize_fixed (m : Int) (qe : Int) (h : numDigits m.natAbs ≤ 28) :
    quantize ⟨m, qe⟩ qe = .ok ⟨m, qe⟩ := by
  rw [quantize, quantizedCoeff_self, if_pos h]

theorem decStr_exp_zero (d : Dec) (h : d.e = 0) :
    decStr d = (if d.m < 0 then ['-'] else []) ++ natToChars d.m.natAbs := by
  have hn : 0 < (natToChars d.m.natAbs).length :=
    List.length_pos.mpr (natToChars_ne_nil d.m.natAbs)
  have hdp : decDotplace 0 ((natToChars d.m.natAbs).length) =
      ((natToChars d.m.natAbs).length : Int) := by
    rw [decDotplace, if_pos ⟨le_refl 0, by omega⟩]
    omega
  simp only [decStr, h, hdp]
  rw [decBody,
    if_neg (show ¬(((natToChars d.m.natAbs).length : Int) ≤ 0) from by omega),
    if_pos (le_refl ((natToChars d.m.natAbs).length : Int)),
    if_pos (show (0 : Int) + ((natToChars d.m.natAbs).length : Int) =
      ((natToChars d.m.natAbs).length : Int) from by omega)]
  simp

theorem updateHeader_ct (c : PyStr) :
    updateHeader [("Content-type".data, "application/x-www-form-urlencoded".data)]
      "Cookie".data c =
    [("Content-type".data, "application/x-www-form-urlencoded".data), ("Cookie".data, c)] := by
  rw [updateHeader, if_neg (by decide), updateHeader]

theorem lookup_cookie (c v : PyStr) :
    List.lookup "Cookie".data
      [("Content-type".data, v), ("Cookie".data, c)] = some c := by
  simp [List.lookup]

theorem makeRequest_fresh_cookie (st : ConnState) (env : ReqEnv) (u p hdr body : PyStr)
    (hc : st.cookie = none) (hh : env.hs = .ok (hdr, body)) :
    (makeRequest st env u none p true).state =
        ⟨some (composeCookie hdr body), st.handleGen⟩ ∧
      (makeRequest st env u none p true).handshakeRan = true ∧
      (makeRequest st env u none p true).sentHeaders =
        some [("Content-type".data, "application/x-www-form-urlencoded".data),
              ("Cookie".data, composeCookie hdr body)] := by
  obtain ⟨hs0, post0⟩ := env
  simp only at hh
  subst hh
  obtain ⟨c0, g0⟩ := st
  simp only at hc
  subst hc
  cases post0 <;> exact ⟨rfl, rfl, rfl⟩

theorem makeRequest_cached_cookie (st : ConnState) (env : ReqEnv) (u p c : PyStr)
    (hc : st.cookie = some c) :
    (makeRequest st env u none p true).state = st ∧
      (makeRequest st env u none p true).handshakeRan = false ∧
      (makeRequest st env u none p true).sentHeaders =
        some [("Content-type".data, "application/x-www-form-urlencoded".data),
              ("Cookie".data, c)] := by
  obtain ⟨hs0, post0⟩ := env
  obtain ⟨c0, g0⟩ := st
  simp only at hc
  subst hc
  cases post0 <;> exact ⟨rfl, rfl, rfl⟩

theorem charsToNat_foldl (b : PyStr) (init : Nat) :
    b.foldl (fun a c => 10 * a + (c.toNat - 48)) init =
      init * 10 ^ b.length + b.foldl (fun a c => 10 * a + (c.toNat - 48)) 0 := by
  induction b generalizing init with
  | nil => simp
  | cons c t ih =>
    simp only [List.foldl_cons, List.length_cons]
    rw [ih (10 * init + (c.toNat - 48)), ih (10 * 0 + (c.toNat - 48))]
    ring

theorem charsToNat_append (a b : PyStr) :
    charsToNat (a ++ b) = charsToNat a * 10 ^ b.length + charsToNat b := by
  rw [charsToNat, List.foldl_append]
  exact charsToNat_foldl b _

theorem Dec.toRat_eq_zpow (d : Dec) : d.toRat = (d.m : ℚ) * (10 : ℚ) ^ d.e := by
  rw [Dec.toRat]
  split
  · rename_i h
    rw [← zpow_natCast (10 : ℚ) d.e.toNat, Int.toNat_of_nonneg h]
  · rename_i h
    have hk : ((-d.e).toNat : ℤ) = -d.e := Int.toNat_of_nonneg (by omega)
    rw [div_eq_mul_inv, ← zpow_natCast (10 : ℚ) (-d.e).toNat, hk, ← zpow_neg, neg_neg]

theorem decOfParts_exact (neg : Bool) (ip fp : PyStr) (eneg : Bool) (ed : PyStr) :
    (decOfParts neg ip fp eneg ed).toRat = litRat neg ip fp eneg ed := by
  rw [Dec.toRat_eq_zpow, decOfParts, litRat]
  simp only
  rw [charsToNat_append]
  rw [zpow_sub₀ (by norm_num : (10 : ℚ) ≠ 0), zpow_natCast]
  have h10 : ((10 : ℚ) ^ fp.length) ≠ 0 := pow_ne_zero _ (by norm_num)
  have key : ((charsToNat ip : ℚ) + (charsToNat fp : ℚ) / 10 ^ fp.length) =
      ((charsToNat ip : ℚ) * 10 ^ fp.length + (charsToNat fp : ℚ)) / 10 ^ fp.length := by
    field_simp
  rw [key]
  cases neg <;> cases eneg <;> push_cast <;>
    rw [div_eq_mul_inv, div_eq_mul_inv] <;> ring

theorem strip_concat_zero (l : PyStr) :
    stripZerosKeepOne (l ++ ['0']) = stripZerosKeepOne l := by
  simp [stripZerosKeepOne, List.reverse_append]

theorem strip_concat_nonzero (l : PyStr) (b : Char) (hb : b ≠ '0') :
    stripZerosKeepOne (l ++ [b]) = l ++ [b] := by
  simp [stripZerosKeepOne, List.reverse_append, List.dropWhile_cons, hb]

theorem stripLoopAux_split :
    ∀ (fuel : Nat) (a fp : PyStr), fp ≠ [] → fp.length ≤ fuel →
      stripLoopAux fuel (a ++ '.' :: fp) a.length = a ++ '.' :: stripZerosKeepOne fp := by
  intro fuel
  induction fuel with
  | zero =>
    intro a fp hne hlen
    exact absurd (List.length_eq_zero.mp (by omega)) hne
  | succ f ih =>
    intro a fp hne hlen
    rcases List.eq_nil_or_concat fp with h | ⟨l, b, rfl⟩
    · exact absurd h hne
    · simp only [List.concat_eq_append] at hne hlen ⊢
      rw [stripLoopAux]
      have hassoc : a ++ '.' :: (l ++ [b]) = (a ++ '.' :: l) ++ [b] := by simp
      have hlast : (a ++ '.' :: (l ++ [b])).getLastD ' ' = b := by
        rw [hassoc]
        exact List.getLastD_concat _ _ _
      have hlen2 : (a ++ '.' :: (l ++ [b])).length = a.length + l.length + 2 := by
        simp
        omega
      by_cases hb : b = '0'
      · by_cases hl : l = []
        · subst hl hb
          rw [if_neg (by rw [hlast, hlen2]; simp)]
          simp [stripZerosKeepOne]
        · subst hb
          rw [if_pos ⟨by rw [hlast],
            by rw [hlen2]; have := List.length_pos.mpr hl; omega⟩]
          have hdrop : (a ++ '.' :: (l ++ ['0'])).dropLast = a ++ '.' :: l := by
            rw [hassoc]
            exact List.dropLast_concat
          rw [hdrop, ih a l hl (by simp at hlen; omega), strip_concat_zero]
      · rw [if_neg (by rw [hlast, hlen2]; intro hx; exact hb hx.1)]
        rw [strip_concat_nonzero l b hb]

theorem stripLoop_split (a fp : PyStr) (hne : fp ≠ []) :
    stripLoop (a ++ '.' :: fp) a.length = a ++ '.' :: stripZerosKeepOne fp := by
  rw [stripLoop]
  exact stripLoopAux_split _ a fp hne (by simp; omega)

theorem decStr_neg_exp (t : Dec) (d : Nat) (hd : 1 ≤ d) (he : t.e = -(d : Int))
    (hplain : d - 6 < numDigits t.m.natAbs) :
    decStr t = (if t.m < 0 then ['-'] else []) ++
      (if (natToChars t.m.natAbs).length ≤ d then
        '0' :: '.' ::
          (List.replicate (d - (natToChars t.m.natAbs).length) '0' ++ natToChars t.m.natAbs)
      else
        (natToChars t.m.natAbs).take ((natToChars t.m.natAbs).length - d) ++
          '.' :: (natToChars t.m.natAbs).drop ((natToChars t.m.natAbs).length - d)) := by
  have hn : 0 < (natToChars t.m.natAbs).length := List.length_pos.mpr (natToChars_ne_nil _)
  have hplain2 : d - 6 < (natToChars t.m.natAbs).length := hplain
  have hdp : decDotplace (-(d : Int)) (natToChars t.m.natAbs).length =
      -(d : Int) + (natToChars t.m.natAbs).length := by
    rw [decDotplace, if_pos ⟨by omega, by omega⟩]
  simp only [decStr, he, hdp]
  simp only [ite_true]
  by_cases hcase : (natToChars t.m.natAbs).length ≤ d
  · rw [if_pos hcase, decBody,
      if_pos (show -(d : Int) + ((natToChars t.m.natAbs).length : Int) ≤ 0 by omega),
      show (-(-(d : Int) + ((natToChars t.m.natAbs).length : Int))).toNat =
        d - (natToChars t.m.natAbs).length by omega]
    simp
  · rw [if_neg hcase, decBody,
      if_neg (show ¬(-(d : Int) + ((natToChars t.m.natAbs).length : Int) ≤ 0) by omega),
      if_neg (show ¬(((natToChars t.m.natAbs).length : Int) ≤
        -(d : Int) + ((natToChars t.m.natAbs).length : Int)) by omega),
      show (-(d : Int) + ((natToChars t.m.natAbs).length : Int)).toNat =
        (natToChars t.m.natAbs).length - d by omega]
    simp

theorem formatSpec_low (t : Dec) (d : Nat)
    (hcase : (natToChars t.m.natAbs).length ≤ d) :
    formatSpec t d = ((if t.m < 0 then ['-'] else []) ++ ['0']) ++ '.' ::
      stripZerosKeepOne
        (List.replicate (d - (natToChars t.m.natAbs).length) '0' ++ natToChars t.m.natAbs) := by
  have hn : 0 < (natToChars t.m.natAbs).length := List.length_pos.mpr (natToChars_ne_nil _)
  rw [formatSpec]
  have hlen : (List.replicate (d + 1 - (natToChars t.m.natAbs).length) '0' ++
      natToChars t.m.natAbs).length = d + 1 := by
    simp
    omega
  rw [hlen, show d + 1 - d = 1 from by omega]
  obtain ⟨k, hk⟩ : ∃ k, d + 1 - (natToChars t.m.natAbs).length = k + 1 :=
    ⟨d - (natToChars t.m.natAbs).length, by omega⟩
  rw [hk, List.replicate_succ]
  have hk2 : k = d - (natToChars t.m.natAbs).length := by omega
  simp [hk2, List.append_assoc]

theorem formatSpec_high (t : Dec) (d : Nat)
    (hcase : d < (natToChars t.m.natAbs).length) :
    formatSpec t d = ((if t.m < 0 then ['-'] else []) ++
        (natToChars t.m.natAbs).take ((natToChars t.m.natAbs).length - d)) ++ '.' ::
      stripZerosKeepOne ((natToChars t.m.natAbs).drop ((natToChars t.m.natAbs).length - d)) := by
  rw [formatSpec, show d + 1 - (natToChars t.m.natAbs).length = 0 from by omega]
  simp [List.append_assoc]


/-! ### Claim theorems -/


/-- C1: parsing through the JSON-decoding entry point represents every
numeric literal as the exact-precision decimal carrying the literal's digits,
never a binary float.  The scanner builds every number via `decOfParts`, and
for all literal digit parts that value is exactly the literal's mathematical
value (`litRat`); in particular parsing `\x7b"a": 0.1, "b": 3\x7d` yields for
key `"a"` the decimal `0.1` exactly, that is, the rational `1/10`. -/

theorem claim_C1 :
    (∀ (neg : Bool) (ip fp : PyStr) (eneg : Bool) (ed : PyStr),
      (decOfParts neg ip fp eneg ed).toRat = litRat neg ip fp eneg ed) ∧
    jsonLoads "\x7b\"a\": 0.1, \"b\": 3\x7d".data =
      .ok (.obj [("a".data, .num ⟨1, -1⟩), ("b".data, .num ⟨3, 0⟩)]) ∧
    (Dec.mk 1 (-1)).toRat = 1 / 10 := by
  refine ⟨decOfParts_exact, rfl, ?_⟩
  rw [Dec.toRat]
  norm_num

/-- C2: `validateOrder` raises `InvalidTradePair` for an unregistered pair
(naming the swapped pair in the message when the swap is registered), then
`InvalidTradeType` for a side other than `"buy"`/`"sell"`, then
`InvalidTradeAmount` exactly when `amount < min_orders[pair]` with the
Formatter-rendered minimum embedded in the message, and otherwise returns
normally. -/

theorem claim_C2 (pair side : PyStr) (rate amount : Dec) :
    (pair ∉ all_pairs →
      ∃ m, validateOrder pair side rate amount = .error (.invalidTradePair m) ∧
        ('_' ∈ pair →
          (splitFirstUnderscore pair).2 ++ '_' :: (splitFirstUnderscore pair).1 ∈ all_pairs →
          ∃ pre suf,
            m = pre ++ ((splitFirstUnderscore pair).2 ++ '_' :: (splitFirstUnderscore pair).1)
              ++ suf)) ∧
    (pair ∈ all_pairs → side ≠ "buy".data → side ≠ "sell".data →
      validateOrder pair side rate amount =
        .error (.invalidTradeType ("Unrecognized trade type: ".data ++ pyReprStr side))) ∧
    (∀ mn fm, pair ∈ all_pairs → (side = "buy".data ∨ side = "sell".data) →
      min_orders pair = some mn → formatCurrency mn pair = .ok fm →
      (decLt amount mn = true →
        validateOrder pair side rate amount = .error (.invalidTradeAmount
          ("Trade amount ".data ++ pyReprDec amount ++ " is too small, it should be >= ".data
            ++ fm))) ∧
      (decLt amount mn = false → validateOrder pair side rate amount = .ok ())) := by
  refine ⟨?_, ?_, ?_⟩
  · intro h
    by_cases hu : '_' ∈ pair
    · by_cases hsw :
        (splitFirstUnderscore pair).2 ++ '_' :: (splitFirstUnderscore pair).1 ∈ all_pairs
      · refine ⟨"Unrecognized pair: ".data ++ pyReprStr pair ++ " (did you mean ".data ++
          ((splitFirstUnderscore pair).2 ++ '_' :: (splitFirstUnderscore pair).1) ++ "?)".data,
          ?_, ?_⟩
        · simp only [validateOrder, validatePair, if_neg h, if_pos hu, if_pos hsw]
        · intro _ _
          exact ⟨"Unrecognized pair: ".data ++ pyReprStr pair ++ " (did you mean ".data,
            "?)".data, by simp [List.append_assoc]⟩
      · refine ⟨"Unrecognized pair: ".data ++ pyReprStr pair, ?_, ?_⟩
        · simp only [validateOrder, validatePair, if_neg h, if_pos hu, if_neg hsw]
        · intro _ hsw2
          exact absurd hsw2 hsw
    · refine ⟨"Unrecognized pair: ".data ++ pyReprStr pair, ?_, ?_⟩
      · simp only [validateOrder, validatePair, if_neg h, if_neg hu]
      · intro hu2 _
        exact absurd hu2 hu
  · intro h hb hs
    simp only [validateOrder, validatePair, if_pos h]
    rw [if_pos ⟨hb, hs⟩]
  · intro mn fm h hside hmn hfm
    have hnot : ¬(side ≠ "buy".data ∧ side ≠ "sell".data) := by
      rcases hside with h1 | h1 <;> simp [h1]
    constructor
    · intro hlt
      simp only [validateOrder, validatePair, if_pos h, if_neg hnot, hmn, hfm]
      rw [if_pos hlt]
    · intro hlt
      simp only [validateOrder, validatePair, if_pos h, if_neg hnot, hmn, hfm]
      rw [if_neg (by rw [hlt]; exact Bool.false_ne_true)]

/-- C2 witness: `validateOrder("btc_usd", "buy", rate, Decimal("0.005"))`
raises `InvalidTradeAmount` with a message ending in the formatted minimum
`"0.01"`. -/

theorem claim_C2_witness :
    validateOrder "btc_usd".data "buy".data ⟨1, 0⟩ ⟨5, -3⟩ =
      .error (.invalidTradeAmount ("Trade amount ".data ++ pyReprDec ⟨5, -3⟩ ++
        " is too small, it should be >= ".data ++ "0.01".data)) :=
  ((claim_C2 "btc_usd".data "buy".data ⟨1, 0⟩ ⟨5, -3⟩).2.2 ⟨1, -2⟩ "0.01".data
    (by decide) (Or.inl rfl) (by decide) (by decide)).1 (by decide)

/-- C3: the composed cookie is `__cfduid=A; a=B` when both fragment patterns
match, `__cfduid=A` for the header fragment alone, `a=B` for the body
fragment alone, and the empty string when neither matches — and a connection
whose cookie is the empty string still attaches an empty `Cookie` header on a
cookie-requiring request rather than suppressing it. -/

theorem claim_C3 (hdr body : PyStr) :
    (∀ a b, searchHeaderCookie hdr = some a → searchBodyCookie body = some b →
      composeCookie hdr body = "__cfduid=".data ++ a ++ "; a=".data ++ b) ∧
    (∀ a, searchHeaderCookie hdr = some a → searchBodyCookie body = none →
      composeCookie hdr body = "__cfduid=".data ++ a) ∧
    (∀ b, searchHeaderCookie hdr = none → searchBodyCookie body = some b →
      composeCookie hdr body = "a=".data ++ b) ∧
    (searchHeaderCookie hdr = none → searchBodyCookie body = none →
      composeCookie hdr body = []) ∧
    (∀ (st : ConnState) (env : ReqEnv) (u p : PyStr), st.cookie = some [] →
      ((makeRequest st env u none p true).sentHeaders.getD []).lookup "Cookie".data =
        some []) := by
  refine ⟨?_, ?_, ?_, ?_, ?_⟩
  · intro a b h1 h2
    have hne : ("__cfduid=".data ++ a : PyStr) ≠ [] := by
      intro hx
      exact absurd (congrArg List.length hx) (by simp)
    have hsplit : ("; a=".data : PyStr) = "; ".data ++ "a=".data := by decide
    rw [composeCookie]
    simp only [h1, h2, hsplit]
    rw [if_pos hne]
    simp [List.append_assoc]
  · intro a h1 h2
    rw [composeCookie]
    simp only [h1, h2]
  · intro b h1 h2
    rw [composeCookie]
    simp only [h1, h2]
    rw [if_neg (by simp)]
    simp
  · intro h1 h2
    rw [composeCookie]
    simp only [h1, h2]
  · intro st env u p hc
    obtain ⟨hs0, post0⟩ := env
    obtain ⟨c0, g0⟩ := st
    simp only at hc
    subst hc
    cases post0 <;> exact lookup_cookie _ _

/-- C3 witness: on a concrete handshake response in which both patterns
match, the composed cookie is `__cfduid=<46 hex>; a=<32 hex>`. -/

theorem claim_C3_witness :
    composeCookie hdrW bodyW = "__cfduid=".data ++ hexAW ++ "; a=".data ++ hexBW :=
  (claim_C3 hdrW bodyW).1 hexAW hexBW (by decide) (by decide)

/-- C4: the handshake runs on the first cookie-requiring request of a
connection whose cookie is unset, stores the composed cookie, and a second
cookie-requiring request on the resulting state attaches the identical cookie
without running the handshake again; rebuilding the connection clears the
cookie. -/

theorem claim_C4 (st : ConnState) (env1 env2 : ReqEnv) (hdr body u1 p1 u2 p2 : PyStr)
    (hc : st.cookie = none) (hh : env1.hs = .ok (hdr, body)) :
    (makeRequest st env1 u1 none p1 true).handshakeRan = true ∧
    (makeRequest st env1 u1 none p1 true).state.cookie = some (composeCookie hdr body) ∧
    ((makeRequest st env1 u1 none p1 true).sentHeaders.getD []).lookup "Cookie".data =
      some (composeCookie hdr body) ∧
    (makeRequest (makeRequest st env1 u1 none p1 true).state env2 u2 none p2 true).handshakeRan
      = false ∧
    (makeRequest (makeRequest st env1 u1 none p1 true).state env2 u2 none p2 true).state =
      (makeRequest st env1 u1 none p1 true).state ∧
    ((makeRequest (makeRequest st env1 u1 none p1 true).state env2 u2 none p2 true).sentHeaders.getD
        []).lookup "Cookie".data = some (composeCookie hdr body) ∧
    (setup_connection (makeRequest st env1 u1 none p1 true).state).cookie = none := by
  obtain ⟨h1s, h1r, h1h⟩ := makeRequest_fresh_cookie st env1 u1 p1 hdr body hc hh
  have hc2 : (makeRequest st env1 u1 none p1 true).state.cookie = some (composeCookie hdr body) := by
    rw [h1s]
  obtain ⟨h2s, h2r, h2h⟩ :=
    makeRequest_cached_cookie (makeRequest st env1 u1 none p1 true).state env2 u2 p2
      (composeCookie hdr body) hc2
  refine ⟨h1r, hc2, ?_, h2r, h2s, ?_, rfl⟩
  · rw [h1h]
    exact lookup_cookie _ _
  · rw [h2h]
    exact lookup_cookie _ _

/-- C4 witness: starting from a freshly constructed connection, the first
request attaches the composed cookie and the second request does not re-run
the handshake. -/

theorem claim_C4_witness :
    initConn.cookie = none ∧
    ((makeRequest initConn env1W "/tapi".data none "method=x".data true).sentHeaders.getD
      []).lookup "Cookie".data = some (composeCookie hdrW bodyW) ∧
    (makeRequest (makeRequest initConn env1W "/tapi".data none "method=x".data true).state
      env2W "/tapi".data none "method=x".data true).handshakeRan = false :=
  ⟨rfl,
   (claim_C4 initConn env1W env2W hdrW bodyW "/tapi".data "method=x".data "/tapi".data
     "method=x".data rfl rfl).2.2.1,
   (claim_C4 initConn env1W env2W hdrW bodyW "/tapi".data "method=x".data "/tapi".data
     "method=x".data rfl rfl).2.2.2.1⟩

/-- C5 (code evaluated at the failing input): when `conn.request` raises
during a normal `POST`, the `try/finally` shape of `makeRequest` leaves the
connection state untouched — the handle is never closed or rebuilt — and the
error surfaced is the follow-on `ResponseNotReady` from the `finally`
clause's `getresponse()`, not the original transport error.  Only the
handshake path (`getCookie`) closes and rebuilds the handle (clearing the
cookie, new handle generation) and re-raises the original error. -/

theorem claim_C5 :
    (∀ (st : ConnState) (hs : Except PyStr (PyStr × PyStr)) (u p em : PyStr),
        (makeRequest st ⟨hs, .error em⟩ u none p false).state = st ∧
        (makeRequest st ⟨hs, .error em⟩ u none p false).result = .error .responseNotReady) ∧
    (∀ (st : ConnState) (em : PyStr),
        getCookie st (.error em) = (⟨none, st.handleGen + 1⟩, some (.transport em))) := by
  constructor
  · intro st hs u p em
    simp [makeRequest]
  · intro st em
    simp [getCookie, setup_connection]

/-- C6 (amended): for `1 ≤ d ≤ 15` and any decimal whose truncation to `d`
digits succeeds within the 28-digit context precision and whose truncated
coefficient has more than `d - 6` digits (so `str` renders positionally, not
scientifically), `formatCurrencyDigits` returns exactly the spec's rendering
`formatSpec`: the truncated value rendered with `d` fractional digits and
trailing zeros stripped down to a minimum of one fractional digit, never to a
bare integer; the three concrete examples of the spec hold.  Outside those
bounds the claimed rendering does not hold: for `d ≥ 16` format raises
`IndexError` (the `exps` table has 16 entries) for every value, and a value
whose truncation renders scientifically yields either a `ValueError` (the
counterexample `1E-7`, whose rendering has no decimal point) or the
scientific string itself, as in `format(Decimal("1.5E-7"), 8) = "1.5E-7"` —
not the claimed positional rendering. -/

theorem claim_C6 :
    (∀ (v : Dec) (d : Nat) (t : Dec), 1 ≤ d → d ≤ 15 →
      truncateAmountDigits v d = .ok t → d - 6 < numDigits t.m.natAbs →
      formatCurrencyDigits v d = .ok (formatSpec t d)) ∧
    formatCurrencyDigits ⟨150000, -5⟩ 5 = .ok "1.5".data ∧
    formatCurrencyDigits ⟨100000, -5⟩ 5 = .ok "1.0".data ∧
    formatCurrencyDigits ⟨123456789, -8⟩ 3 = .ok "1.234".data ∧
    (∀ (v : Dec) (d : Nat), 16 ≤ d → formatCurrencyDigits v d = .error .indexError) ∧
    formatCurrencyDigits ⟨15, -8⟩ 8 = .ok "1.5E-7".data := by
  refine ⟨?_, by decide, by decide, by decide, ?_, by decide⟩
  case refine_2 =>
    intro v d hd
    simp only [formatCurrencyDigits, truncateAmountDigits, exps_getElem_none d hd]
  intro v d t hd1 hd15 htr hplain
  have hlt : d < 16 := by omega
  have he : t.e = -(d : Int) := by
    rw [truncateAmountDigits, exps_getElem d hlt] at htr
    obtain ⟨ht, _⟩ := quantize_ok_elim v _ t htr
    rw [ht]
  have hn : 0 < (natToChars t.m.natAbs).length := List.length_pos.mpr (natToChars_ne_nil _)
  simp only [formatCurrencyDigits, htr]
  rw [decStr_neg_exp t d hd1 he hplain]
  have hsign : ∀ c ∈ (if t.m < 0 then ['-'] else [] : PyStr), c ≠ '.' := by
    intro c hc
    split at hc <;> simp_all
  by_cases hcase : (natToChars t.m.natAbs).length ≤ d
  · rw [if_pos hcase]
    have hre : (if t.m < 0 then ['-'] else [] : PyStr) ++
        ('0' :: '.' ::
          (List.replicate (d - (natToChars t.m.natAbs).length) '0' ++ natToChars t.m.natAbs)) =
        ((if t.m < 0 then ['-'] else []) ++ ['0']) ++ '.' ::
          (List.replicate (d - (natToChars t.m.natAbs).length) '0' ++ natToChars t.m.natAbs) := by
      simp
    rw [hre]
    have hnodot : ∀ c ∈ ((if t.m < 0 then ['-'] else [] : PyStr) ++ ['0']), c ≠ '.' := by
      intro c hc
      rcases List.mem_append.mp hc with h1 | h1
      · exact hsign c h1
      · simp at h1
        subst h1
        decide
    have hfpne : (List.replicate (d - (natToChars t.m.natAbs).length) '0' ++
        natToChars t.m.natAbs) ≠ [] := by
      simp [natToChars_ne_nil]
    rw [findDotIdx_append _ _ hnodot]
    simp only []
    rw [stripLoop_split _ _ hfpne, formatSpec_low t d hcase]
  · rw [if_neg hcase]
    have hre : (if t.m < 0 then ['-'] else [] : PyStr) ++
        ((natToChars t.m.natAbs).take ((natToChars t.m.natAbs).length - d) ++
          '.' :: (natToChars t.m.natAbs).drop ((natToChars t.m.natAbs).length - d)) =
        ((if t.m < 0 then ['-'] else []) ++
          (natToChars t.m.natAbs).take ((natToChars t.m.natAbs).length - d)) ++
          '.' :: (natToChars t.m.natAbs).drop ((natToChars t.m.natAbs).length - d) := by
      simp
    rw [hre]
    have hnodot : ∀ c ∈ ((if t.m < 0 then ['-'] else [] : PyStr) ++
        (natToChars t.m.natAbs).take ((natToChars t.m.natAbs).length - d)), c ≠ '.' := by
      intro c hc
      rcases List.mem_append.mp hc with h1 | h1
      · exact hsign c h1
      · exact mem_natToChars_ne_dot _ _ (List.take_subset _ _ h1)
    have hfpne : (natToChars t.m.natAbs).drop ((natToChars t.m.natAbs).length - d) ≠ [] := by
      intro hx
      have := congrArg List.length hx
      simp at this
      omega
    rw [findDotIdx_append _ _ hnodot]
    simp only []
    rw [stripLoop_split _ _ hfpne, formatSpec_high t d (by omega)]

/-- C6 counterexample to the claim as stated: for the decimal `1E-7` and
`d = 7` (within "every decimal value and `d ≥ 1`"), `format` does not return
the rendered decimal string — `str` renders the truncated value in scientific
notation, so the decimal-point lookup raises `ValueError`. -/

theorem claim_C6_counterexample :
    formatCurrencyDigits ⟨1, -7⟩ 7 = .error .valueError := by decide

/-- C6 witness: truncating `Decimal("1.23456789")` to 3 digits gives
`Decimal("1.234")`, and `format` returns the spec rendering, which is
`"1.234"`; and at `d = 16` format fails with `IndexError`. -/

theorem claim_C6_witness :
    truncateAmountDigits ⟨123456789, -8⟩ 3 = .ok ⟨1234, -3⟩ ∧
    formatCurrencyDigits ⟨123456789, -8⟩ 3 = .ok (formatSpec ⟨1234, -3⟩ 3) ∧
    formatSpec ⟨1234, -3⟩ 3 = "1.234".data ∧
    formatCurrencyDigits ⟨1, 0⟩ 16 = .error .indexError :=
  ⟨by decide,
   claim_C6.1 ⟨123456789, -8⟩ 3 ⟨1234, -3⟩ (by decide) (by decide) (by decide) (by decide),
   by decide,
   claim_C6.2.2.2.2.1 ⟨1, 0⟩ 16 (by decide)⟩

/-- C7: truncation is idempotent: composing `truncateAmountDigits` with
itself through the error monad (an inner exception propagates, as in Python)
equals a single truncation, for every decimal `x` and digit count `d ≥ 0`. -/

theorem claim_C7 (x : Dec) (d : Nat) :
    (truncateAmountDigits x d).bind (fun t => truncateAmountDigits t d) = truncateAmountDigits x d := by
  by_cases hd : d < 16
  · simp only [truncateAmountDigits, exps_getElem d hd]
    cases hq : quantize x (-(d : Int)) with
    | error e => rfl
    | ok t =>
      show quantize t (-(d : Int)) = Except.ok t
      obtain ⟨ht, h28⟩ := quantize_ok_elim x _ t hq
      subst ht
      exact quantize_fixed _ _ h28
  · simp only [truncateAmountDigits, exps_getElem_none d (by omega)]
    rfl

/-- C8 (amended): `format(value, 0)` never succeeds: it always raises — a
`ValueError` whenever truncation to 0 digits succeeds, because the truncated
value renders with no decimal point, so the stripping rule never applies at
digit count 0. -/

theorem claim_C8 (v : Dec) :
    (∃ e, formatCurrencyDigits v 0 = .error e) ∧
    (∀ t, truncateAmountDigits v 0 = .ok t →
      formatCurrencyDigits v 0 = .error .valueError) := by
  have key : ∀ t, truncateAmountDigits v 0 = .ok t →
      formatCurrencyDigits v 0 = .error .valueError := by
    intro t ht
    have he : t.e = 0 := by
      rw [truncateAmountDigits, exps_getElem 0 (by omega)] at ht
      obtain ⟨h1, _⟩ := quantize_ok_elim v _ t ht
      rw [h1]
      simp
    simp only [formatCurrencyDigits, ht]
    rw [decStr_exp_zero t he, findDotIdx_no_dot]
    intro c hc
    rcases List.mem_append.mp hc with h1 | h2
    · intro hx
      subst hx
      split at h1 <;> simp_all
    · exact mem_natToChars_ne_dot _ _ h2
  refine ⟨?_, key⟩
  cases hq : truncateAmountDigits v 0 with
  | error e => exact ⟨e, by simp only [formatCurrencyDigits, hq]⟩
  | ok t => exact ⟨.valueError, key t hq⟩

/-- C8 counterexample to the claim as stated: `format(Decimal("1.5"), 0)`
does not succeed with one fractional digit kept — `str` of the truncated
`Decimal("1")` has no decimal point and the point lookup raises
`ValueError`. -/

theorem claim_C8_counterexample :
    formatCurrencyDigits ⟨15, -1⟩ 0 = .error .valueError := by decide

/-- C8 witness: truncation of `Decimal("1.5")` to 0 digits succeeds (with
`Decimal("1")`), and `format` raises `ValueError` there. -/

theorem claim_C8_witness :
    truncateAmountDigits ⟨15, -1⟩ 0 = .ok ⟨1, 0⟩ ∧
    formatCurrencyDigits ⟨15, -1⟩ 0 = .error .valueError :=
  ⟨by decide, (claim_C8 ⟨15, -1⟩).2 ⟨1, 0⟩ (by decide)⟩

/-- C9 (amended): on every malformed input the JSON-decoding entry point
raises an exception whose message wraps the underlying decode error's message
and embeds the `repr` of the raw input text (so the raw text is a substring
of the message). -/

theorem claim_C9 (s : PyStr) (e : JErr) (h : jsonLoads s = .error e) :
    parseJSONResponse s = .error (.exception
      ("Error while attempting to parse JSON response: ".data ++ e.msg ++
       "\nResponse:\n".data ++ pyReprStr s)) ∧
    ∃ pre suf,
      ("Error while attempting to parse JSON response: ".data ++ e.msg ++
       "\nResponse:\n".data ++ pyReprStr s) = pre ++ s ++ suf := by
  constructor
  · rw [parseJSONResponse, h]
  · refine ⟨"Error while attempting to parse JSON response: ".data ++ e.msg ++
      "\nResponse:\n".data ++ [squote], [squote], ?_⟩
    simp [pyReprStr, List.append_assoc]

/-- C9 counterexample to the claim as stated: on the malformed input
`"bogus"` the entry point raises the generic `Exception` class
(`PyErr.exception`), not a distinguishable typed `JSONParseError`. -/

theorem claim_C9_counterexample :
    parseJSONResponse "bogus".data =
      .error (.exception
        ("Error while attempting to parse JSON response: Expecting value\nResponse:\n".data ++
          pyReprStr "bogus".data)) := by
  rfl

/-- C9 witness: the malformed input `"bogus"` fails to decode with
"Expecting value", and the entry point wraps that error and the repr of the
input into the raised exception's message. -/

theorem claim_C9_witness :
    jsonLoads "bogus".data = .error ⟨"Expecting value".data⟩ ∧
    parseJSONResponse "bogus".data = .error (.exception
      ("Error while attempting to parse JSON response: ".data ++ "Expecting value".data ++
       "\nResponse:\n".data ++ pyReprStr "bogus".data)) :=
  ⟨rfl, (claim_C9 "bogus".data ⟨"Expecting value".data⟩ rfl).1⟩

/-- C10: `validateOrder` never inspects its `rate` argument: outcomes for
any two rates are identical (definitionally). -/

theorem claim_C10 (pair side : PyStr) (r1 r2 amount : Dec) :
    validateOrder pair side r1 amount = validateOrder pair side r2 amount := rfl
